import Mathlib

/-!
# Verification of the Coinbox deterministic wallet core

A shallow embedding of the wallet core of the Coinbox repository
(`apps/desktop/src-tauri/src/wallet/`): the session secret store
(`storage.rs`), the wallet manager (`core.rs`), the chain registry
(`registry.rs`), the chain modules (`chains/secp256k1/ethereum.rs`,
`chains/secp256k1/bitcoin.rs`, `chains/ed25519/solana.rs`) and the Bitcoin
adapter (`bitcoin/adapter.rs`).

Modelling conventions:
* machine bytes (`u8`) are `Nat` values; byte strings (`Vec<u8>`, `[u8; 64]`)
  are `List Nat`; `u64` arithmetic is `Nat` reduced `% 2^64` where overflow
  matters;
* Rust strings are Lean `String`s, except where code walks a string
  character by character (the EIP-55 checksum, Base58), where we use
  `List Char`; these strings are ASCII in every use the code makes of them;
* fallible Rust functions returning `Result` become `Except`;
* external cryptographic library calls (BIP32 child-key derivation from the
  `bip32`/`k256` crates, secp256k1 point arithmetic, Ed25519/SLIP-0010
  primitives, and address parsing from the `bitcoin` crate) are abstract
  function parameters gathered in a `Prims` structure: everything the
  repository itself computes is embedded concretely.  Keccak-256 (the
  `sha3` crate) is embedded concretely because the EIP-55 claims are about
  its interaction with the repository's own checksum loop.
-/

namespace Coinbox

/-! ## Wallet error type (`wallet/error.rs`) -/

/-- `WalletError` from `wallet/error.rs` (the variants the embedded code
constructs). -/
inductive WalletError where
  | invalidMnemonic (msg : String)
  | invalidMnemonicLength (count : Nat)
  | walletNotFound (id : String)
  | walletLocked
  | sessionExpired
  | unsupportedChain (id : String)
  | derivationError (msg : String)
  | storageError (msg : String)
  deriving Repr, DecidableEq

/-- `ChainFamily` from `wallet/types.rs`. -/
inductive ChainFamily where
  | secp256k1
  | ed25519
  | sr25519
  deriving Repr, DecidableEq

/-- `DerivedAddress` from `wallet/types.rs`: chain id, curve family, address
string, derivation-path string and raw public-key bytes. -/
structure DerivedAddress where
  chain : String
  chainFamily : ChainFamily
  address : String
  derivationPath : String
  publicKey : List Nat
  deriving Repr, DecidableEq

/-! ## ASCII character helpers

These model the `u8`/`char` ASCII-classification and case functions Rust
uses (`is_ascii_hexdigit`, `is_ascii_digit`, `to_ascii_uppercase`,
`to_lowercase` restricted to ASCII, `char::to_digit(16)`). -/

/-- Rust `char::is_ascii_digit`. -/
def isAsciiDigitChar (c : Char) : Bool :=
  '0' ≤ c && c ≤ '9'

/-- Rust `char::is_ascii_hexdigit`. -/
def isAsciiHexDigitChar (c : Char) : Bool :=
  isAsciiDigitChar c || ('a' ≤ c && c ≤ 'f') || ('A' ≤ c && c ≤ 'F')

/-- Rust `char::to_ascii_uppercase` (ASCII letters only). -/
def asciiToUpper (c : Char) : Char :=
  if 'a' ≤ c && c ≤ 'z' then Char.ofNat (c.toNat - 32) else c

/-- Rust `str::to_lowercase`, restricted to ASCII (every string the checksum
code lowercases is ASCII hex plus the `0x` prefix). -/
def asciiToLower (c : Char) : Char :=
  if 'A' ≤ c && c ≤ 'Z' then Char.ofNat (c.toNat + 32) else c

/-- Rust `char::to_digit(16)`, written over the character's code point:
digits map to 0–9, `a–f` and `A–F` to 10–15, everything else to `none`. -/
def charToDigit16 (c : Char) : Option Nat :=
  let n := c.toNat
  if 48 ≤ n && n ≤ 57 then some (n - 48)
  else if 97 ≤ n && n ≤ 102 then some (n - 87)
  else if 65 ≤ n && n ≤ 70 then some (n - 55)
  else none

/-- Lowercase hex digit for a nibble (`hex::encode` uses lowercase). -/
def hexDigitLower (n : Nat) : Char :=
  if n < 10 then Char.ofNat (48 + n) else Char.ofNat (87 + n)

/-- `hex::encode` of a byte string, as characters. -/
def hexChars (bs : List Nat) : List Char :=
  bs.flatMap (fun b => [hexDigitLower (b / 16), hexDigitLower (b % 16)])

/-! ## Keccak-256 (the `sha3` crate's `Keccak256`)

Concrete embedding of Keccak-256 (original Keccak padding, rate 1088):
`keccak256` maps a byte string to its 32-byte digest. -/

/-- Reduce to a 64-bit lane. -/
def u64 (n : Nat) : Nat := n % 18446744073709551616

/-- 64-bit rotate left by `n < 64`. -/
def rotl64 (x n : Nat) : Nat :=
  u64 ((x <<< n) ||| (x >>> (64 - n)))

/-- Keccak ρ rotation offsets, indexed by lane position `x + 5*y`, one
sublist per row `y`. -/
def rhoOffsets : List Nat :=
  [0, 1, 62, 28, 27] ++
    [36, 44, 6, 55, 20] ++
    [3, 10, 43, 25, 39] ++
    [41, 45, 15, 21, 8] ++
    [18, 2, 61, 56, 14]

/-- Keccak-f round constants (decimal), three per sublist. -/
def keccakRC : List Nat :=
  [1, 32898, 9223372036854808714] ++
    [9223372039002292224, 32907, 2147483649] ++
    [9223372039002292353, 9223372036854808585, 138] ++
    [136, 2147516425, 2147483658] ++
    [2147516555, 9223372036854775947, 9223372036854808713] ++
    [9223372036854808579, 9223372036854808578, 9223372036854775936] ++
    [32778, 9223372039002259466, 9223372039002292353] ++
    [9223372036854808704, 2147483649, 9223372039002292232]

/-- Lane `(x, y)` of a 25-lane state. -/
def lane (s : List Nat) (x y : Nat) : Nat := s.getD (x + 5 * y) 0

/-- Keccak θ step. -/
def keccakTheta (s : List Nat) : List Nat :=
  let c := fun x =>
    Nat.xor (lane s x 0) (Nat.xor (lane s x 1)
      (Nat.xor (lane s x 2) (Nat.xor (lane s x 3) (lane s x 4))))
  let d := fun x => Nat.xor (c ((x + 4) % 5)) (rotl64 (c ((x + 1) % 5)) 1)
  (List.range 25).map (fun i => Nat.xor (s.getD i 0) (d (i % 5)))

/-- Keccak ρ and π steps combined: destination lane `(X, Y)` receives the
rotation of source lane `((X + 3Y) % 5, X)`. -/
def keccakRhoPi (s : List Nat) : List Nat :=
  (List.range 25).map (fun i =>
    let xD := i % 5
    let yD := i / 5
    let src := (xD + 3 * yD) % 5 + 5 * xD
    rotl64 (s.getD src 0) (rhoOffsets.getD src 0))

/-- Keccak χ step. -/
def keccakChi (s : List Nat) : List Nat :=
  (List.range 25).map (fun i =>
    let x := i % 5
    let y := i / 5
    Nat.xor (lane s x y)
      (Nat.land (Nat.xor (lane s ((x + 1) % 5) y) 18446744073709551615)
        (lane s ((x + 2) % 5) y)))

/-- Keccak ι step: xor the round constant into lane 0. -/
def keccakIota (rc : Nat) (s : List Nat) : List Nat :=
  match s with
  | [] => []
  | a :: rest => Nat.xor a rc :: rest

/-- One Keccak-f round. -/
def keccakRound (s : List Nat) (rc : Nat) : List Nat :=
  keccakIota rc (keccakChi (keccakRhoPi (keccakTheta s)))

/-- Keccak-f[1600]: 24 rounds. -/
def keccakF (s : List Nat) : List Nat :=
  keccakRC.foldl keccakRound s

/-- Keccak pad10*1 with domain byte `0x01` (original Keccak, rate 136
bytes). -/
def keccakPad (m : List Nat) : List Nat :=
  let padLen := 136 - m.length % 136
  if padLen == 1 then m ++ [0x81]
  else m ++ [0x01] ++ List.replicate (padLen - 2) 0 ++ [0x80]

/-- Little-endian bytes to a 64-bit lane. -/
def bytesToLaneLE (bs : List Nat) : Nat :=
  bs.foldr (fun b acc => acc * 256 + b) 0

/-- Absorb one 136-byte block into the state and permute. -/
def keccakAbsorbBlock (st : List Nat) (block : List Nat) : List Nat :=
  keccakF ((List.range 25).map (fun i =>
    if i < 17 then
      Nat.xor (st.getD i 0) (bytesToLaneLE ((block.drop (8 * i)).take 8))
    else st.getD i 0))

/-- Absorb `nblocks` 136-byte blocks. -/
def keccakAbsorb (st : List Nat) (l : List Nat) : Nat → List Nat
  | 0 => st
  | n + 1 => keccakAbsorb (keccakAbsorbBlock st (l.take 136)) (l.drop 136) n

/-- A 64-bit lane to little-endian bytes. -/
def laneToBytesLE (x : Nat) : List Nat :=
  (List.range 8).map (fun i => (x >>> (8 * i)) % 256)

/-- Keccak-256 digest (32 bytes) of a byte string. -/
def keccak256 (m : List Nat) : List Nat :=
  let p := keccakPad m
  let st := keccakAbsorb (List.replicate 25 0) p (p.length / 136)
  (st.take 4).flatMap laneToBytesLE

/-! ## EIP-55 checksum (`EthereumModule::to_checksum_address`) -/

/-- Rust `str::trim_start_matches("0x")`: repeatedly strip a leading
`"0x"`. -/
def trimStart0x : List Char → List Char
  | '0' :: 'x' :: rest => trimStart0x rest
  | l => l

/-- The per-character loop of `to_checksum_address`: character `c` at
position `i` of the lowercase address is uppercased when it is a hex letter
and the hash-hex character at position `i` has value `≥ 8`.  The source
indexes `hash_hex.chars().nth(i).unwrap()`; the `unwrap` can only be reached
for `i < 64` because `hash_hex` has 64 characters, so the default `' '`
(whose `to_digit(16)` is `none`) models the in-bounds behaviour exactly. -/
def checksumMapChars (hashHex : List Char) : List Char → Nat → List Char
  | [], _ => []
  | c :: rest, i =>
    (if isAsciiHexDigitChar c && !isAsciiDigitChar c then
      if (charToDigit16 (hashHex.getD i ' ')).getD 0 ≥ 8 then asciiToUpper c
      else c
    else c) :: checksumMapChars hashHex rest (i + 1)

/-- `EthereumModule::to_checksum_address`, over characters: strip a leading
`0x`, lowercase, hash the lowercase address bytes with Keccak-256, and
uppercase each hex letter whose corresponding hash nibble is `≥ 8`, with a
fresh `0x` prefix.  Parameterised by the Keccak function so that facts
independent of the hash can be stated for any hash; the program instantiates
`keccak` with `keccak256`. -/
def toChecksumChars (keccak : List Nat → List Nat) (address : List Char) :
    List Char :=
  let addressLower := (trimStart0x address).map asciiToLower
  let hashHex := hexChars (keccak (addressLower.map Char.toNat))
  '0' :: 'x' :: checksumMapChars hashHex addressLower 0

/-- `EthereumModule::to_checksum_address` as the program runs it (with the
real Keccak-256), on `String`s. -/
def toChecksumAddress (address : String) : String :=
  String.mk (toChecksumChars keccak256 address.toList)

/-- One apostrophe character, used to build derivation-path strings. -/
def tick : String := String.singleton (Char.ofNat 39)

/-! ## External cryptographic primitives

The repository calls these through the `bip32`, `k256`, `bitcoin`,
`hmac`/`sha2` and `ed25519-dalek` crates; they are abstract parameters of
the embedding.  Every claim proved below holds for all values of these
parameters (witnesses instantiate them with concrete dummies). -/

/-- Abstract external-crate primitives used by the chain modules. -/
structure Prims where
  /-- `derive_key_from_seed(seed, path)` followed by
  `.private_key().to_bytes()` (`chains/secp256k1/mod.rs`). -/
  derivePrivKey : List Nat → String → Except WalletError (List Nat)
  /-- k256 `SigningKey::from_bytes` + `verifying_key().to_encoded_point(false)`:
  the 65-byte uncompressed SEC1 point, or the library's error message. -/
  ethUncompressedPubkey : List Nat → Except String (List Nat)
  /-- secp256k1 `SecretKey::from_slice` + `PublicKey::from_secret_key` +
  `serialize()`: the 33-byte compressed key, or the error message. -/
  btcPublicKey : List Nat → Except String (List Nat)
  /-- `Address::p2wpkh(&compressed_pk, network).to_string()`. -/
  btcP2wpkh : List Nat → Bool → String
  /-- `address.parse::<Address<_>>().is_ok()` (the `bitcoin` crate parser). -/
  btcParseOk : String → Bool
  /-- `slip10_derive_path(seed, path)` (`chains/ed25519/mod.rs`). -/
  slip10DerivePath : List Nat → List Nat → Except WalletError (List Nat)
  /-- `create_signing_key(..)` + `verifying_key().as_bytes()`: the 32-byte
  Ed25519 public key (`create_signing_key` is declared fallible). -/
  ed25519PublicKey : List Nat → Except WalletError (List Nat)

/-! ## Ethereum / EVM chain module (`chains/secp256k1/ethereum.rs`) -/

/-- `EthereumModule`: chain id, display name and testnet flag; the only
per-instance state of the EVM-family module. -/
structure EthereumModule where
  chainId : String
  displayName : String
  isTestnet : Bool
  deriving Repr, DecidableEq

/-- `EthereumModule::new(chain_id)` for mainnet EVM chains. -/
def EthereumModule.new (chainId : String) : EthereumModule :=
  let displayName :=
    if chainId == "ethereum" then "Ethereum"
    else if chainId == "arbitrum" then "Arbitrum One"
    else if chainId == "optimism" then "Optimism"
    else if chainId == "base" then "Base"
    else if chainId == "polygon" then "Polygon"
    else if chainId == "avalanche" then "Avalanche C-Chain"
    else chainId
  { chainId, displayName, isTestnet := false }

/-- `EthereumModule::ethereum()`. -/
def EthereumModule.ethereum : EthereumModule := .new "ethereum"

/-- `EthereumModule::arbitrum()`. -/
def EthereumModule.arbitrum : EthereumModule := .new "arbitrum"

/-- `EthereumModule::optimism()`. -/
def EthereumModule.optimism : EthereumModule := .new "optimism"

/-- `EthereumModule::base()`. -/
def EthereumModule.base : EthereumModule := .new "base"

/-- `EthereumModule::polygon()`. -/
def EthereumModule.polygon : EthereumModule := .new "polygon"

/-- `coin_type()` of the EVM module: `coin_types::ETHEREUM = 60`. -/
def EthereumModule.coinType (_ : EthereumModule) : Nat := 60

/-- `derivation_path(account, index)`: `m/44'/60'/account'/0/index`. -/
def EthereumModule.derivationPath (m : EthereumModule)
    (account index : Nat) : String :=
  "m/44" ++ tick ++ "/" ++ toString m.coinType ++ tick ++ "/" ++
    toString account ++ tick ++ "/0/" ++ toString index

/-- `EthereumModule::derive_address`: BIP44 key derivation, uncompressed
public key, Keccak-256 of the key without its prefix byte, last 20 bytes as
the address, EIP-55 checksummed. -/
def EthereumModule.deriveAddress (prims : Prims) (m : EthereumModule)
    (seed : List Nat) (account index : Nat) :
    Except WalletError DerivedAddress := do
  let path := m.derivationPath account index
  let privateKeyBytes ← prims.derivePrivKey seed path
  let publicKeyBytes ←
    match prims.ethUncompressedPubkey privateKeyBytes with
    | .error e => .error (WalletError.derivationError ("Invalid private key: " ++ e))
    | .ok b => pure b
  let publicKeyNoPrefix := publicKeyBytes.drop 1
  let hash := keccak256 publicKeyNoPrefix
  let addressBytes := hash.drop 12
  let address := "0x" ++ (hexChars addressBytes).asString
  let checksumAddress := toChecksumAddress address
  pure { chain := m.chainId, chainFamily := .secp256k1,
         address := checksumAddress, derivationPath := path,
         publicKey := publicKeyBytes }

/-- `EthereumModule::is_valid_checksum`: all-lowercase or all-uppercase hex
skips the checksum; otherwise the address must equal its own checksumming. -/
def EthereumModule.isValidChecksum (address : String) : Bool :=
  if !(address.startsWith "0x") || address.length != 42 then false
  else
    let addrWithoutPrefix := address.toList.drop 2
    if addrWithoutPrefix == addrWithoutPrefix.map asciiToLower ||
        addrWithoutPrefix == addrWithoutPrefix.map asciiToUpper then true
    else toChecksumAddress address == address

/-- `EthereumModule::validate_address`: `0x` + 40 hex characters + checksum
check when mixed-case. -/
def EthereumModule.validateAddress (_ : EthereumModule)
    (address : String) : Bool :=
  if !(address.startsWith "0x") || address.length != 42 then false
  else if !(address.toList.drop 2).all isAsciiHexDigitChar then false
  else EthereumModule.isValidChecksum address

/-! ## Bitcoin chain module (`chains/secp256k1/bitcoin.rs`) -/

/-- The `bitcoin::Network` values the module distinguishes. -/
inductive BtcNetwork where
  | bitcoin
  | testnet
  | signet
  | regtest
  deriving Repr, DecidableEq

/-- `BitcoinModule`: holds its network. -/
structure BitcoinModule where
  network : BtcNetwork
  deriving Repr, DecidableEq

/-- `BitcoinModule::new()`: mainnet. -/
def BitcoinModule.new : BitcoinModule := ⟨.bitcoin⟩

/-- `chain_id()` of the Bitcoin module. -/
def BitcoinModule.chainId (m : BitcoinModule) : String :=
  match m.network with
  | .bitcoin => "bitcoin"
  | .testnet | .signet => "bitcoin_testnet"
  | .regtest => "bitcoin_regtest"

/-- `display_name()` of the Bitcoin module. -/
def BitcoinModule.displayName (m : BitcoinModule) : String :=
  match m.network with
  | .bitcoin => "Bitcoin"
  | .testnet | .signet => "Bitcoin Testnet"
  | .regtest => "Bitcoin Regtest"

/-- `is_testnet()` of the Bitcoin module. -/
def BitcoinModule.isTestnet (m : BitcoinModule) : Bool :=
  match m.network with
  | .testnet | .signet | .regtest => true
  | .bitcoin => false

/-- `derivation_path(account, index)`: `m/84'/0'/account'/0/index`. -/
def BitcoinModule.derivationPath (_ : BitcoinModule)
    (account index : Nat) : String :=
  "m/84" ++ tick ++ "/" ++ toString (0 : Nat) ++ tick ++ "/" ++
    toString account ++ tick ++ "/0/" ++ toString index

/-- `BitcoinModule::derive_address`: BIP84 key derivation, compressed public
key, P2WPKH address. -/
def BitcoinModule.deriveAddress (prims : Prims) (m : BitcoinModule)
    (seed : List Nat) (account index : Nat) :
    Except WalletError DerivedAddress := do
  let path := m.derivationPath account index
  let privateKeyBytes ← prims.derivePrivKey seed path
  let publicKey ←
    match prims.btcPublicKey privateKeyBytes with
    | .error e => .error (WalletError.derivationError ("Invalid private key: " ++ e))
    | .ok b => pure b
  let address := prims.btcP2wpkh publicKey (m.network == .bitcoin)
  pure { chain := m.chainId, chainFamily := .secp256k1, address,
         derivationPath := path, publicKey }

/-- `BitcoinModule::validate_address`: library parse plus a network-prefix
check. -/
def BitcoinModule.validateAddress (prims : Prims) (m : BitcoinModule)
    (address : String) : Bool :=
  if prims.btcParseOk address then
    match m.network with
    | .bitcoin =>
        address.startsWith "1" || address.startsWith "3" ||
          address.startsWith "bc1"
    | .testnet | .signet =>
        address.startsWith "m" || address.startsWith "n" ||
          address.startsWith "2" || address.startsWith "tb1"
    | _ => true
  else false

/-! ## Base58 (the `bs58` crate, Bitcoin alphabet) -/

/-- The Bitcoin-variant Base58 alphabet (`BASE58_CHARS` in `solana.rs`). -/
def base58Alphabet : List Char :=
  "123456789ABCDEFGHJKLMNPQRSTUVWXYZabcdefghijkmnopqrstuvwxyz".toList

/-- `SolanaModule::is_valid_base58`: every character is in the alphabet. -/
def isValidBase58 (s : List Char) : Bool :=
  s.all (fun c => base58Alphabet.contains c)

/-- Index of a character in the Base58 alphabet. -/
def b58DigitVal (c : Char) : Option Nat :=
  base58Alphabet.indexOf? c

/-- Big-endian byte representation of a natural number, fuelled structural
recursion (`fuel ≥ n` always suffices, since the argument at least halves
each step). -/
def natToBytesBEGo : Nat → Nat → List Nat
  | _, 0 => []
  | 0, _ + 1 => []
  | fuel + 1, n + 1 => natToBytesBEGo fuel ((n + 1) / 256) ++ [(n + 1) % 256]

/-- Big-endian byte representation of a natural number (no leading zero
byte; `0` is the empty string of bytes). -/
def natToBytesBE (n : Nat) : List Nat :=
  natToBytesBEGo n n

/-- Number of leading occurrences of a character. -/
def countLeading (c : Char) : List Char → Nat
  | [] => 0
  | a :: rest => if a = c then countLeading c rest + 1 else 0

/-- The Base58 string read as a base-58 number, `none` on any character
outside the alphabet. -/
def bs58DecodeNat (s : List Char) : Option Nat :=
  s.foldl (fun acc c => acc.bind (fun a => (b58DigitVal c).map (fun d => a * 58 + d)))
    (some 0)

/-- `bs58::decode(..).into_vec()`: each leading `'1'` is a zero byte, the
rest is the big-endian base-256 expansion of the base-58 value. -/
def bs58Decode (s : List Char) : Option (List Nat) :=
  (bs58DecodeNat s).map
    (fun n => List.replicate (countLeading '1' s) 0 ++ natToBytesBE n)

/-- Base-58 digit string of a natural number, fuelled structural
recursion. -/
def natToB58CharsGo : Nat → Nat → List Char
  | _, 0 => []
  | 0, _ + 1 => []
  | fuel + 1, n + 1 =>
      natToB58CharsGo fuel ((n + 1) / 58) ++
        [base58Alphabet.getD ((n + 1) % 58) '1']

/-- Base-58 digit string of a natural number (empty for `0`). -/
def natToB58Chars (n : Nat) : List Char :=
  natToB58CharsGo n n

/-- Number of leading zero bytes. -/
def countLeadingZeroBytes : List Nat → Nat
  | [] => 0
  | b :: rest => if b = 0 then countLeadingZeroBytes rest + 1 else 0

/-- `bs58::encode(..).into_string()`. -/
def bs58Encode (bs : List Nat) : List Char :=
  List.replicate (countLeadingZeroBytes bs) '1' ++
    natToB58Chars (bs.foldl (fun a b => a * 256 + b) 0)

/-! ## Solana chain module (`chains/ed25519/solana.rs`) -/

/-- `SolanaModule`: holds its devnet flag. -/
structure SolanaModule where
  isDevnet : Bool
  deriving Repr, DecidableEq

/-- `SolanaModule::new()`: mainnet. -/
def SolanaModule.new : SolanaModule := ⟨false⟩

/-- `chain_id()` of the Solana module. -/
def SolanaModule.chainId (m : SolanaModule) : String :=
  if m.isDevnet then "solana_devnet" else "solana"

/-- `display_name()` of the Solana module. -/
def SolanaModule.displayName (m : SolanaModule) : String :=
  if m.isDevnet then "Solana Devnet" else "Solana"

/-- `derivation_path(account, index)`: `m/44'/501'/account'/index'`, all
hardened. -/
def SolanaModule.derivationPath (_ : SolanaModule)
    (account index : Nat) : String :=
  "m/44" ++ tick ++ "/" ++ toString (501 : Nat) ++ tick ++ "/" ++
    toString account ++ tick ++ "/" ++ toString index ++ tick

/-- `SolanaModule::derive_address`: SLIP-0010 derivation along
`[44, 501, account, index]`, Base58 of the Ed25519 public key. -/
def SolanaModule.deriveAddress (prims : Prims) (m : SolanaModule)
    (seed : List Nat) (account index : Nat) :
    Except WalletError DerivedAddress := do
  let path := [44, 501, account, index]
  let derivationPath := m.derivationPath account index
  let privateKey ← prims.slip10DerivePath seed path
  let publicKeyBytes ← prims.ed25519PublicKey privateKey
  let address := (bs58Encode publicKeyBytes).asString
  pure { chain := m.chainId, chainFamily := .ed25519, address,
         derivationPath, publicKey := publicKeyBytes }

/-- `SolanaModule::validate_address`: length between 32 and 44, Base58
alphabet membership, and a decoded length of exactly 32 bytes. -/
def SolanaModule.validateAddress (_ : SolanaModule) (address : String) : Bool :=
  let cs := address.toList
  if cs.length < 32 || cs.length > 44 then false
  else if !isValidBase58 cs then false
  else
    match bs58Decode cs with
    | some bytes => bytes.length == 32
    | none => false

/-! ## Chain registry (`wallet/registry.rs`) -/

/-- The `ChainModule` capability record, as the registry stores it (one
entry per chain, dynamic dispatch). -/
structure ChainModuleImpl where
  chainId : String
  displayName : String
  chainFamily : ChainFamily
  coinType : Nat
  isTestnet : Bool
  deriveAddress : List Nat → Nat → Nat → Except WalletError DerivedAddress
  validateAddress : String → Bool
  derivationPath : Nat → Nat → String

/-- The Bitcoin module as a registry entry. -/
def BitcoinModule.impl (prims : Prims) (m : BitcoinModule) : ChainModuleImpl where
  chainId := m.chainId
  displayName := m.displayName
  chainFamily := .secp256k1
  coinType := 0
  isTestnet := m.isTestnet
  deriveAddress := m.deriveAddress prims
  validateAddress := m.validateAddress prims
  derivationPath := m.derivationPath

/-- An EVM module as a registry entry. -/
def EthereumModule.impl (prims : Prims) (m : EthereumModule) : ChainModuleImpl where
  chainId := m.chainId
  displayName := m.displayName
  chainFamily := .secp256k1
  coinType := m.coinType
  isTestnet := m.isTestnet
  deriveAddress := m.deriveAddress prims
  validateAddress := m.validateAddress
  derivationPath := m.derivationPath

/-- The Solana module as a registry entry. -/
def SolanaModule.impl (prims : Prims) (m : SolanaModule) : ChainModuleImpl where
  chainId := m.chainId
  displayName := m.displayName
  chainFamily := .ed25519
  coinType := 501
  isTestnet := m.isDevnet
  deriveAddress := m.deriveAddress prims
  validateAddress := m.validateAddress
  derivationPath := m.derivationPath

/-- `ChainRegistry`: modules keyed by chain id. -/
structure ChainRegistry where
  modules : List (String × ChainModuleImpl)

/-- `ChainRegistry::register`: insert keyed by the module's own chain id
(the newest insertion shadows, as with `HashMap::insert`). -/
def ChainRegistry.register (r : ChainRegistry) (m : ChainModuleImpl) :
    ChainRegistry :=
  ⟨(m.chainId, m) :: r.modules⟩

/-- `ChainRegistry::new()`: Bitcoin, the five EVM chains, Solana. -/
def ChainRegistry.new (prims : Prims) : ChainRegistry :=
  ((((((((⟨[]⟩ : ChainRegistry).register
    (BitcoinModule.impl prims .new)).register
    (EthereumModule.impl prims .ethereum)).register
    (EthereumModule.impl prims .arbitrum)).register
    (EthereumModule.impl prims .optimism)).register
    (EthereumModule.impl prims .base)).register
    (EthereumModule.impl prims .polygon)).register
    (SolanaModule.impl prims .new))

/-- `ChainRegistry::get`. -/
def ChainRegistry.get (r : ChainRegistry) (chainId : String) :
    Option ChainModuleImpl :=
  r.modules.lookup chainId

/-- `ChainRegistry::is_supported`. -/
def ChainRegistry.isSupported (r : ChainRegistry) (chainId : String) : Bool :=
  (r.get chainId).isSome

/-- `ChainRegistry::validate_address`: dispatch, `UnsupportedChain` on a
registry miss. -/
def ChainRegistry.validateAddress (r : ChainRegistry)
    (chainId address : String) : Except WalletError Bool :=
  match r.get chainId with
  | none => .error (.unsupportedChain chainId)
  | some m => .ok (m.validateAddress address)

/-- `ChainRegistry::derive_address`: dispatch, `UnsupportedChain` on a
registry miss. -/
def ChainRegistry.deriveAddress (r : ChainRegistry) (chainId : String)
    (seed : List Nat) (account index : Nat) :
    Except WalletError DerivedAddress :=
  match r.get chainId with
  | none => .error (.unsupportedChain chainId)
  | some m => m.deriveAddress seed account index

/-- `ChainRegistry::derive_addresses`: per-chain fan-out at index 0,
collected fail-fast left to right (`collect::<Result<Vec<_>>>` over the
iterator). -/
def ChainRegistry.deriveAddresses (r : ChainRegistry) (chainIds : List String)
    (seed : List Nat) (account : Nat) :
    Except WalletError (List DerivedAddress) :=
  match chainIds with
  | [] => .ok []
  | chainId :: rest => do
    let a ← r.deriveAddress chainId seed account 0
    let as ← r.deriveAddresses rest seed account
    pure (a :: as)

/-! ## Session secret store (`wallet/storage.rs`) -/

/-- `SessionCache`: cached seeds keyed by wallet id, plus the unlocked flag.
The `HashMap` is an association list whose newest insertion shadows. -/
structure SessionCache where
  seeds : List (String × List Nat)
  isUnlocked : Bool
  deriving Repr, DecidableEq

/-- `SessionCache::new()`: empty and locked. -/
def SessionCache.new : SessionCache := ⟨[], false⟩

/-- `SessionCache::set_unlocked`. -/
def SessionCache.setUnlocked (c : SessionCache) (unlocked : Bool) :
    SessionCache :=
  { c with isUnlocked := unlocked }

/-- `SessionCache::cache_seed`: insert the seed under the wallet id. -/
def SessionCache.cacheSeed (c : SessionCache) (walletId : String)
    (seed : List Nat) : SessionCache :=
  { c with seeds := (walletId, seed) :: c.seeds }

/-- `SessionCache::get_seed`. -/
def SessionCache.getSeed (c : SessionCache) (walletId : String) :
    Option (List Nat) :=
  c.seeds.lookup walletId

/-- `SessionCache::has_seed`. -/
def SessionCache.hasSeed (c : SessionCache) (walletId : String) : Bool :=
  (c.getSeed walletId).isSome

/-- `SessionCache::clear`: drop every seed and set `unlocked = false`. -/
def SessionCache.clear (_ : SessionCache) : SessionCache :=
  ⟨[], false⟩

/-- `SecureStorage`: wraps the session cache (the Stronghold path plays no
role in the embedded operations). -/
structure SecureStorage where
  sessionCache : SessionCache
  deriving Repr, DecidableEq

/-- `SecureStorage::new()`. -/
def SecureStorage.new : SecureStorage := ⟨SessionCache.new⟩

/-- `SecureStorage::is_unlocked`. -/
def SecureStorage.isUnlocked (st : SecureStorage) : Bool :=
  st.sessionCache.isUnlocked

/-- `SecureStorage::get_seed`: `WalletLocked` when the unlocked flag is
down, `WalletNotFound` when the id is absent, otherwise the cached seed. -/
def SecureStorage.getSeed (st : SecureStorage) (walletId : String) :
    Except WalletError (List Nat) :=
  if !st.isUnlocked then .error .walletLocked
  else
    match st.sessionCache.getSeed walletId with
    | some s => .ok s
    | none => .error (.walletNotFound walletId)

/-- `SecureStorage::cache_seed`: sets unlocked and inserts the seed. -/
def SecureStorage.cacheSeed (st : SecureStorage) (walletId : String)
    (seed : List Nat) : SecureStorage :=
  ⟨(st.sessionCache.setUnlocked true).cacheSeed walletId seed⟩

/-- `SecureStorage::lock`: clear the session cache. -/
def SecureStorage.lock (st : SecureStorage) : SecureStorage :=
  ⟨st.sessionCache.clear⟩

/-- `SecureStorage::unlock`: only raises the unlocked flag. -/
def SecureStorage.unlock (st : SecureStorage) : SecureStorage :=
  ⟨st.sessionCache.setUnlocked true⟩

/-! ## Wallet manager (`wallet/core.rs`) -/

/-- `ValidateMnemonicResponse` from `wallet/types.rs`. -/
structure ValidateMnemonicResponse where
  isValid : Bool
  wordCount : Nat
  error : Option String
  deriving Repr, DecidableEq

/-- Abstract mnemonic primitives (the `bip39` crate and the entropy source):
the generated phrase, the validation verdict, and the PBKDF2 seed
derivation.  Fixing them fixes one run's entropy. -/
structure MnemonicPrims where
  /-- `generate_mnemonic(length)`: entropy plus BIP39 encoding, for a word
  count of 12 or 24. -/
  generate : Nat → Except WalletError String
  /-- `validate_mnemonic(phrase)` (`wallet/mnemonic.rs`). -/
  validate : String → ValidateMnemonicResponse
  /-- `mnemonic_to_seed(phrase, passphrase)`: BIP39 parse + PBKDF2-HMAC-SHA512,
  64-byte seed. -/
  toSeed : String → String → Except WalletError (List Nat)

/-- `WalletManager::generate_mnemonic(word_count)`: only 12 or 24 are
accepted, otherwise `InvalidMnemonicLength`. -/
def generateMnemonicManager (mn : MnemonicPrims) (wordCount : Nat) :
    Except WalletError String :=
  if wordCount = 12 ∨ wordCount = 24 then mn.generate wordCount
  else .error (.invalidMnemonicLength wordCount)

/-- `parse_mnemonic(phrase)` (`wallet/mnemonic.rs`): validate, then wrap the
phrase. -/
def parseMnemonic (mn : MnemonicPrims) (phrase : String) :
    Except WalletError String :=
  let validation := mn.validate phrase
  if !validation.isValid then
    .error (.invalidMnemonic (validation.error.getD "Invalid mnemonic"))
  else .ok phrase

/-- `CreateHDWalletRequest` from `wallet/types.rs`. -/
structure CreateHDWalletRequest where
  name : String
  chains : List String
  wordCount : Nat
  deriving Repr, DecidableEq

/-- `CreateHDWalletResponse` from `wallet/types.rs`. -/
structure CreateHDWalletResponse where
  walletId : String
  mnemonic : String
  addresses : List DerivedAddress
  deriving Repr, DecidableEq

/-- `WalletManager::create_hd_wallet(request, password)`: generate a
mnemonic, derive the seed with an empty passphrase, derive the requested
chains' addresses at account 0, cache the seed under a fresh wallet id
(`uuid::Uuid::new_v4()`, modelled as the `freshWalletId` parameter), and
return the mnemonic once together with the addresses.  The `password`
argument is `_password` in the source: it is never read. -/
def createHdWallet (prims : Prims) (mn : MnemonicPrims) (st : SecureStorage)
    (request : CreateHDWalletRequest) (_password : String)
    (freshWalletId : String) :
    Except WalletError (CreateHDWalletResponse × SecureStorage) := do
  let mnemonic ← generateMnemonicManager mn request.wordCount
  let seed ← mn.toSeed mnemonic ""
  let addresses ← (ChainRegistry.new prims).deriveAddresses request.chains seed 0
  let walletId := freshWalletId
  let st2 := st.cacheSeed walletId seed
  pure ({ walletId, mnemonic, addresses }, st2)

/-- `WalletManager::import_hd_wallet(name, mnemonic_phrase, chains,
password)`: parse/validate the phrase, derive the seed with an empty
passphrase, derive the chains' addresses, cache the seed under a fresh
wallet id.  `name` and `password` are `_name`/`_password` in the source:
never read. -/
def importHdWallet (prims : Prims) (mn : MnemonicPrims) (st : SecureStorage)
    (_name : String) (mnemonicPhrase : String) (chains : List String)
    (_password : String) (freshWalletId : String) :
    Except WalletError (CreateHDWalletResponse × SecureStorage) := do
  let _mnemonic ← parseMnemonic mn mnemonicPhrase
  let seed ← mn.toSeed mnemonicPhrase ""
  let addresses ← (ChainRegistry.new prims).deriveAddresses chains seed 0
  let st2 := st.cacheSeed freshWalletId seed
  pure ({ walletId := freshWalletId, mnemonic := mnemonicPhrase, addresses }, st2)

/-- `WalletManager::derive_address(wallet_id, chain_id, account, index)`:
fetch the cached seed (the wallet must be unlocked), then dispatch through
the registry. -/
def managerDeriveAddress (prims : Prims) (st : SecureStorage)
    (walletId chainId : String) (account index : Nat) :
    Except WalletError DerivedAddress := do
  let seed ← st.getSeed walletId
  (ChainRegistry.new prims).deriveAddress chainId seed account index

/-! ## Bitcoin adapter (`wallet/bitcoin/adapter.rs`)

The adapter operates on a BDK `PersistedWallet`.  For the history and send
claims we model the wallet as the data `get_transactions` and
`create_and_send_transaction` read from it: the canonical transactions with
their chain position, the script-ownership test `is_mine`, and
`calculate_fee`.  Scripts are abstract identifiers (`Nat`). -/

/-- `TransactionDirection` from `bitcoin/types.rs`. -/
inductive TransactionDirection where
  | received
  | sent
  | internal
  deriving Repr, DecidableEq

/-- `ConfirmationStatus` from `bitcoin/types.rs`. -/
inductive ConfirmationStatus where
  | confirmed (blockHeight : Nat) (blockTime : Nat) (confirmations : Nat)
  | unconfirmed
  deriving Repr, DecidableEq

/-- `BitcoinTransaction` from `bitcoin/types.rs`. -/
structure BitcoinTransaction where
  txid : String
  direction : TransactionDirection
  amountSats : Int
  feeSats : Option Nat
  status : ConfirmationStatus
  timestamp : Option Nat
  addresses : List String
  size : Option Nat
  vsize : Option Nat
  deriving Repr, DecidableEq

/-- A transaction output: value in sats and its script (abstract id). -/
structure TxOut where
  value : Nat
  scriptPubkey : Nat
  deriving Repr, DecidableEq

/-- A transaction input, carrying the previous output it spends (value and
script).  `get_transactions` never reads the inputs; they are in the model
because the spec's netting formula refers to them. -/
structure TxIn where
  prevValue : Nat
  prevScriptPubkey : Nat
  deriving Repr, DecidableEq

/-- BDK `ChainPosition` as `get_transactions` matches it. -/
inductive ChainPos where
  | confirmed (blockHeight : Nat) (confirmationTime : Nat)
  | unconfirmed
  deriving Repr, DecidableEq

/-- One canonical wallet transaction (`tx.tx_node` plus `tx.chain_position`). -/
structure WalletTx where
  txid : String
  inputs : List TxIn
  outputs : List TxOut
  chainPosition : ChainPos
  totalSize : Nat
  vsize : Nat
  deriving Repr, DecidableEq

/-- The state of a persisted BDK wallet that `get_transactions` reads:
`wallet.transactions()`, `wallet.is_mine` (ownership = script membership in
the wallet's script index) and `wallet.calculate_fee`. -/
structure BdkWallet where
  transactions : List WalletTx
  ownedScripts : List Nat
  calcFee : WalletTx → Option Nat

/-- `wallet.is_mine(script)`. -/
def BdkWallet.isMine (w : BdkWallet) (script : Nat) : Bool :=
  w.ownedScripts.contains script

/-- Option-of-Nat `≤` with `none` smallest (Rust `Option<u64>::cmp`). -/
def optionNatLe : Option Nat → Option Nat → Bool
  | none, _ => true
  | some _, none => false
  | some m, some n => m ≤ n

/-- Insert `a` into `l` before the first element `b` with `le a b` (stable
insertion). -/
def insertLe (le : α → α → Bool) (a : α) : List α → List α
  | [] => [a]
  | b :: l => if le a b then a :: b :: l else b :: insertLe le a l

/-- Stable sort with respect to `le` (models `Vec::sort_by`, which is a
stable sort). -/
def sortByStable (le : α → α → Bool) : List α → List α
  | [] => []
  | a :: l => insertLe le a (sortByStable le l)

/-- The per-transaction body of `BitcoinAdapter::get_transactions`:
`received` sums the outputs whose script the wallet owns, `sent` is the
constant `0` (the source comment: checking inputs "requires fetching
previous transactions ... simplified calculation"), and the signed amount is
`received - sent`. -/
def txToBitcoinTransaction (w : BdkWallet) (addrOf : Nat → Option String)
    (tx : WalletTx) : BitcoinTransaction :=
  let txid := tx.txid
  let received : Int := tx.outputs.foldl
    (fun acc o => if w.isMine o.scriptPubkey then acc + (o.value : Int) else acc) 0
  let sent : Int := 0
  let amountSats := received - sent
  let direction :=
    if amountSats > 0 then TransactionDirection.received
    else if amountSats < 0 then TransactionDirection.sent
    else TransactionDirection.internal
  let status :=
    match tx.chainPosition with
    | .confirmed h t => ConfirmationStatus.confirmed h t 0
    | .unconfirmed => ConfirmationStatus.unconfirmed
  let timestamp :=
    match status with
    | .confirmed _ t _ => some t
    | .unconfirmed => none
  let addresses := tx.outputs.filterMap (fun o => addrOf o.scriptPubkey)
  let feeSats := w.calcFee tx
  { txid, direction, amountSats, feeSats, status, timestamp, addresses,
    size := some tx.totalSize, vsize := some tx.vsize }

/-- `BitcoinAdapter::get_transactions`: map every canonical wallet
transaction and sort by timestamp, most recent first (`Address::from_script`
is the abstract `addrOf`). -/
def getTransactions (w : BdkWallet) (addrOf : Nat → Option String) :
    List BitcoinTransaction :=
  sortByStable (fun a b => optionNatLe b.timestamp a.timestamp)
    (w.transactions.map (txToBitcoinTransaction w addrOf))

/-- The signed amount as the specification describes the full-wallet path:
(sum of the transaction's outputs whose script the wallet owns) minus (sum
of its inputs whose previous output the wallet owns).  This definition
follows the spec's words, for comparison with the code's computation. -/
def specSignedAmount (w : BdkWallet) (tx : WalletTx) : Int :=
  tx.outputs.foldl
    (fun acc o => if w.isMine o.scriptPubkey then acc + (o.value : Int) else acc) 0
  - tx.inputs.foldl
    (fun acc i => if w.isMine i.prevScriptPubkey then acc + (i.prevValue : Int) else acc) 0

/-- The received-only amount the code computes: the sum of the owned
outputs. -/
def receivedOnlyAmount (w : BdkWallet) (tx : WalletTx) : Int :=
  tx.outputs.foldl
    (fun acc o => if w.isMine o.scriptPubkey then acc + (o.value : Int) else acc) 0

/-- The application error the adapter builds.  Modelled from the spec: the
adapter constructs `Error::Bitcoin(msg)` (`crate::error::Error`), and the
declaration of that variant is not among the provided sources; spec §7:
"All are surfaced as a single tagged Bitcoin-domain error carrying a
descriptive message". -/
inductive AppError where
  | bitcoin (msg : String)
  deriving Repr, DecidableEq

/-- `SendTransactionResult` from `bitcoin/types.rs`. -/
structure SendTransactionResult where
  txid : String
  txHex : String
  feeSats : Option Nat
  vsize : Nat
  broadcast : Bool
  deriving Repr, DecidableEq

/-- The environment `create_and_send_transaction` runs in: the outcome of
each library / network step, abstract.  `Psbt` and `Tx` values are abstract
identifiers. -/
structure SendEnv where
  /-- `recipient.parse::<Address<NetworkUnchecked>>()`. -/
  parseRecipient : Except String Unit
  /-- `.require_network(self.network)`, yielding the recipient script. -/
  requireNetwork : Except String Nat
  /-- `tx_builder.finish()`: coin selection and build, yielding a PSBT. -/
  buildTx : Except String Nat
  /-- `wallet.sign(&mut psbt, SignOptions::default())`: the finalized flag
  and the updated PSBT. -/
  sign : Nat → Except String (Bool × Nat)
  /-- `psbt.extract_tx()`. -/
  extractTx : Nat → Except String Nat
  /-- `tx.compute_txid().to_string()`. -/
  txidOf : Nat → String
  /-- `serialize_hex(&tx)`. -/
  txHexOf : Nat → String
  /-- `wallet.calculate_fee(&tx).ok()`. -/
  calcFee : Nat → Option Nat
  /-- `tx.vsize()`. -/
  vsizeOf : Nat → Nat
  /-- `create_electrum_client()`. -/
  connectClient : Except String Unit
  /-- `client.inner.transaction_broadcast(&tx)`. -/
  broadcastTx : Nat → Except String Unit

/-- `BitcoinAdapter::create_and_send_transaction`: parse and network-check
the recipient, build, sign — failing hard with a Bitcoin-domain error when
signing does not finalize — extract, and broadcast only when requested.
The second component records whether a broadcast request was submitted to
the remote server. -/
def createAndSendTransaction (env : SendEnv) (broadcast : Bool) :
    Except AppError SendTransactionResult × Bool :=
  match env.parseRecipient with
  | .error e => (.error (.bitcoin ("Invalid recipient address: " ++ e)), false)
  | .ok _ =>
    match env.requireNetwork with
    | .error e => (.error (.bitcoin ("Address network mismatch: " ++ e)), false)
    | .ok _script =>
      match env.buildTx with
      | .error e => (.error (.bitcoin ("Transaction build failed: " ++ e)), false)
      | .ok psbt =>
        match env.sign psbt with
        | .error e =>
            (.error (.bitcoin ("Transaction signing failed: " ++ e)), false)
        | .ok (finalized, psbt2) =>
          if !finalized then
            (.error (.bitcoin "Transaction not fully signed - missing keys"),
              false)
          else
            match env.extractTx psbt2 with
            | .error e =>
                (.error (.bitcoin ("Failed to extract transaction: " ++ e)),
                  false)
            | .ok tx =>
              let txid := env.txidOf tx
              let txHex := env.txHexOf tx
              let feeSats := env.calcFee tx
              let vsize := env.vsizeOf tx
              if broadcast then
                match env.connectClient with
                | .error e =>
                    (.error (.bitcoin ("Electrum connection failed: " ++ e)),
                      false)
                | .ok _ =>
                  match env.broadcastTx tx with
                  | .error e =>
                      (.error (.bitcoin ("Transaction broadcast failed: " ++ e)),
                        true)
                  | .ok _ =>
                      (.ok { txid, txHex, feeSats, vsize, broadcast }, true)
              else (.ok { txid, txHex, feeSats, vsize, broadcast }, false)

/-! ## Concrete instantiations used to evaluate the theorems -/

/-- A trivial concrete instantiation of the external primitives. -/
def primsW : Prims where
  derivePrivKey := fun _ _ => .ok (List.replicate 32 9)
  ethUncompressedPubkey := fun _ => .ok (List.replicate 65 0)
  btcPublicKey := fun _ => .ok (List.replicate 33 2)
  btcP2wpkh := fun _ _ => "bc1qexample"
  btcParseOk := fun _ => true
  slip10DerivePath := fun _ _ => .ok (List.replicate 32 1)
  ed25519PublicKey := fun _ => .ok []

/-- A concrete 64-byte seed. -/
def seedW : List Nat := List.replicate 64 7

/-- Storage with the seed of wallet `"w1"` cached. -/
def stW : SecureStorage := SecureStorage.new.cacheSeed "w1" seedW

/-- The address `primsW` makes the Solana module derive (the Ed25519 public
key is `[]`, whose Base58 encoding is empty). -/
def solAddrW : DerivedAddress :=
  { chain := "solana", chainFamily := .ed25519, address := "",
    derivationPath := SolanaModule.new.derivationPath 0 0, publicKey := [] }

/-- A wallet transaction spending an owned 100-sat input into an owned
30-sat output. -/
def cexTx : WalletTx :=
  { txid := "t0", inputs := [{ prevValue := 100, prevScriptPubkey := 1 }],
    outputs := [{ value := 30, scriptPubkey := 1 }],
    chainPosition := .unconfirmed, totalSize := 110, vsize := 100 }

/-- A wallet owning script `1` whose only transaction is `cexTx`. -/
def cexWallet : BdkWallet :=
  { transactions := [cexTx], ownedScripts := [1], calcFee := fun _ => none }

/-- `Address::from_script` instantiation that recovers no address. -/
def cexAddrOf : Nat → Option String := fun _ => none

/-- The history entry `get_transactions` builds from `cexTx`. -/
def cexBt : BitcoinTransaction :=
  txToBitcoinTransaction cexWallet cexAddrOf cexTx

/-- An address beginning with an uppercase `0X`: the initial
`trim_start_matches("0x")` does not strip it, so the lowercased `0x` is
baked into the checksummed output. -/
def cexC5 : List Char :=
  '0' :: 'X' :: "5aaeb6053f3e94c9b9a09f33669435e7ef1beaed".toList

/-- A send environment whose signing step reports `finalized = false`. -/
def sendEnvW : SendEnv where
  parseRecipient := .ok ()
  requireNetwork := .ok 5
  buildTx := .ok 11
  sign := fun _ => .ok (false, 12)
  extractTx := fun p => .ok p
  txidOf := fun _ => "txid0"
  txHexOf := fun _ => "hex0"
  calcFee := fun _ => some 10
  vsizeOf := fun _ => 99
  connectClient := .ok ()
  broadcastTx := fun _ => .ok ()

/-! ## Helper lemmas -/

theorem mem_insertLe {le : α → α → Bool} {a x : α} {l : List α} :
    x ∈ insertLe le a l ↔ x = a ∨ x ∈ l := by
  induction l with
  | nil => simp [insertLe]
  | cons b t ih =>
    by_cases h : le a b = true
    · simp [insertLe, h]
    · simp only [insertLe, if_neg h, List.mem_cons, ih]
      tauto

theorem mem_sortByStable {le : α → α → Bool} {x : α} {l : List α} :
    x ∈ sortByStable le l ↔ x ∈ l := by
  induction l with
  | nil => simp [sortByStable]
  | cons a t ih =>
    simp [sortByStable, mem_insertLe, ih]

theorem char_toNat_ofNat_of_lt {n : Nat} (h : n < 55296) :
    (Char.ofNat n).toNat = n := by
  unfold Char.ofNat
  split
  · rfl
  · next hn => exact absurd (Or.inl h) hn

theorem charLe_toNat {a b : Char} : a ≤ b ↔ a.toNat ≤ b.toNat :=
  Char.le_def

theorem asciiToLower_idem (c : Char) :
    asciiToLower (asciiToLower c) = asciiToLower c := by
  unfold asciiToLower
  by_cases h : (decide ('A' ≤ c) && decide (c ≤ 'Z')) = true
  · rw [if_pos h]
    simp only [Bool.and_eq_true, decide_eq_true_eq] at h
    have h65 : 65 ≤ c.toNat := charLe_toNat.mp h.1
    have h90 : c.toNat ≤ 90 := charLe_toNat.mp h.2
    have htn : (Char.ofNat (c.toNat + 32)).toNat = c.toNat + 32 :=
      char_toNat_ofNat_of_lt (by omega)
    rw [if_neg]
    intro hcond
    simp only [Bool.and_eq_true, decide_eq_true_eq] at hcond
    have hle := charLe_toNat.mp hcond.2
    have hZ : 'Z'.toNat = 90 := rfl
    rw [htn, hZ] at hle
    omega
  · rw [if_neg h, if_neg h]

theorem asciiToLower_asciiToUpper_of_fixed {c : Char}
    (h : asciiToLower c = c) : asciiToLower (asciiToUpper c) = c := by
  unfold asciiToUpper
  by_cases hup : (decide ('a' ≤ c) && decide (c ≤ 'z')) = true
  · rw [if_pos hup]
    simp only [Bool.and_eq_true, decide_eq_true_eq] at hup
    have h97 : 97 ≤ c.toNat := charLe_toNat.mp hup.1
    have h122 : c.toNat ≤ 122 := charLe_toNat.mp hup.2
    have htn : (Char.ofNat (c.toNat - 32)).toNat = c.toNat - 32 :=
      char_toNat_ofNat_of_lt (by omega)
    unfold asciiToLower
    rw [if_pos]
    · have : c.toNat - 32 + 32 = c.toNat := by omega
      rw [htn, this, Char.ofNat_toNat]
    · simp only [Bool.and_eq_true, decide_eq_true_eq]
      have hA : 'A'.toNat = 65 := rfl
      have hZ : 'Z'.toNat = 90 := rfl
      constructor
      · exact charLe_toNat.mpr (by rw [hA, htn]; omega)
      · exact charLe_toNat.mpr (by rw [hZ, htn]; omega)
  · rw [if_neg hup]
    exact h

theorem checksumMapChars_map_lower (hh : List Char) (l : List Char) (k : Nat)
    (hl : ∀ c ∈ l, asciiToLower c = c) :
    (checksumMapChars hh l k).map asciiToLower = l := by
  induction l generalizing k with
  | nil => rfl
  | cons c rest ih =>
    have hc : asciiToLower c = c := hl c (List.mem_cons_self c rest)
    have hrest : ∀ c' ∈ rest, asciiToLower c' = c' :=
      fun c' hc' => hl c' (List.mem_cons_of_mem c hc')
    simp only [checksumMapChars, List.map_cons, ih (k + 1) hrest]
    congr 1
    by_cases h1 : (isAsciiHexDigitChar c && !isAsciiDigitChar c) = true
    · rw [if_pos h1]
      by_cases h2 :
          (8 ≤ ((charToDigit16 (hh.getD k ' ')).getD 0))
      · rw [if_pos (by simpa using h2)]
        exact asciiToLower_asciiToUpper_of_fixed hc
      · rw [if_neg (by simpa using h2)]
        exact hc
    · rw [if_neg h1]
      exact hc

theorem checksumMapChars_getD (hh l : List Char) (k i : Nat)
    (hi : i < l.length) :
    (checksumMapChars hh l k).getD i ' ' =
      (if isAsciiHexDigitChar (l.getD i ' ') && !isAsciiDigitChar (l.getD i ' ') then
        if 8 ≤ (charToDigit16 (hh.getD (k + i) ' ')).getD 0 then
          asciiToUpper (l.getD i ' ')
        else l.getD i ' '
      else l.getD i ' ') := by
  induction l generalizing k i with
  | nil => simp at hi
  | cons c rest ih =>
    cases i with
    | zero => simp [checksumMapChars]
    | succ j =>
      have hj : j < rest.length := by simpa using hi
      have := ih (k + 1) j hj
      simp only [checksumMapChars, List.getD_cons_succ]
      rw [this]
      have : k + 1 + j = k + (j + 1) := by omega
      rw [this]

theorem managerDeriveAddress_eq (prims : Prims) (st : SecureStorage)
    (walletId chainId : String) (account index : Nat) :
    managerDeriveAddress prims st walletId chainId account index =
      match st.getSeed walletId with
      | .error e => .error e
      | .ok seed => (ChainRegistry.new prims).deriveAddress chainId seed account index := by
  unfold managerDeriveAddress
  cases st.getSeed walletId <;> rfl

/-! ## The claims -/

/-- C3: for every wallet id, `SecureStorage::get_seed` fails with
`WalletLocked` whenever the unlocked flag is false (regardless of whether
the id is present), otherwise fails with `WalletNotFound` when the id is
absent from the seed map, and otherwise returns a copy of the cached seed
unchanged. -/
theorem c3_getSeed_spec (st : SecureStorage) (walletId : String) :
    (st.isUnlocked = false →
      st.getSeed walletId = .error .walletLocked) ∧
    (st.isUnlocked = true → st.sessionCache.getSeed walletId = none →
      st.getSeed walletId = .error (.walletNotFound walletId)) ∧
    (∀ s, st.isUnlocked = true → st.sessionCache.getSeed walletId = some s →
      st.getSeed walletId = .ok s) := by
  refine ⟨?_, ?_, ?_⟩
  · intro h
    simp [SecureStorage.getSeed, h]
  · intro h1 h2
    simp [SecureStorage.getSeed, h1, h2]
  · intro s h1 h2
    simp [SecureStorage.getSeed, h1, h2]

/-- Witness for C3: a locked store, an unlocked store without the id, and
an unlocked store with the seed cached. -/
theorem c3_witness :
    SecureStorage.new.getSeed "w1" = .error .walletLocked ∧
    (SecureStorage.new.unlock).getSeed "w1" = .error (.walletNotFound "w1") ∧
    stW.getSeed "w1" = .ok seedW :=
  ⟨(c3_getSeed_spec SecureStorage.new "w1").1 rfl,
   (c3_getSeed_spec SecureStorage.new.unlock "w1").2.1 rfl rfl,
   (c3_getSeed_spec stW "w1").2.2 seedW rfl rfl⟩

/-- C10: after `lock()` followed by `unlock()` without re-caching, the
store is unlocked but empty: `get_seed` (and hence `derive_address`) for a
previously cached id fails with `WalletNotFound` — not `WalletLocked` —
and never returns the old seed, because `lock` clears the seed map while
`unlock` only raises the flag. -/
theorem c10_lock_unlock_empty (st : SecureStorage) (walletId : String) :
    (st.lock.unlock).isUnlocked = true ∧
    (st.lock.unlock).getSeed walletId = .error (.walletNotFound walletId) ∧
    (∀ prims chainId account index,
      managerDeriveAddress prims st.lock.unlock walletId chainId account index
        = .error (.walletNotFound walletId)) :=
  ⟨rfl, rfl, fun _ _ _ _ => rfl⟩

/-- C2: after `lock()` every `derive_address` call fails with
`WalletLocked`; once the seed is cached again for the wallet id, the same
`derive_address(wallet_id, chain_id, account, index)` call succeeds and
returns the same address it returned before the lock. -/
theorem c2_lock_invalidates_recache_reproduces
    (prims : Prims) (st : SecureStorage) (walletId chainId : String)
    (account index : Nat) (addr : DerivedAddress) (seed : List Nat)
    (hseed : st.sessionCache.getSeed walletId = some seed)
    (hok : managerDeriveAddress prims st walletId chainId account index = .ok addr) :
    (∀ walletId2 chainId2 account2 index2,
      managerDeriveAddress prims st.lock walletId2 chainId2 account2 index2
        = .error .walletLocked) ∧
    managerDeriveAddress prims (st.lock.cacheSeed walletId seed) walletId
      chainId account index = .ok addr := by
  refine ⟨fun _ _ _ _ => rfl, ?_⟩
  have hb : st.isUnlocked = true := by
    by_contra hfb
    have hb2 : st.isUnlocked = false := by
      cases h : st.isUnlocked
      · rfl
      · exact absurd h hfb
    rw [managerDeriveAddress_eq] at hok
    rw [show st.getSeed walletId = .error .walletLocked by
          simp [SecureStorage.getSeed, hb2]] at hok
    simp at hok
  have hgs : st.getSeed walletId = .ok seed := by
    simp [SecureStorage.getSeed, hb, hseed]
  have hreg : (ChainRegistry.new prims).deriveAddress chainId seed account index
      = .ok addr := by
    rw [managerDeriveAddress_eq, hgs] at hok
    exact hok
  have hgs2 : (st.lock.cacheSeed walletId seed).getSeed walletId = .ok seed := by
    simp [SecureStorage.getSeed, SecureStorage.cacheSeed, SecureStorage.lock,
      SecureStorage.isUnlocked, SessionCache.clear, SessionCache.setUnlocked,
      SessionCache.cacheSeed, SessionCache.getSeed, List.lookup]
  rw [managerDeriveAddress_eq, hgs2]
  exact hreg

/-- Witness for C2: with the trivial primitives, wallet `"w1"` derives the
concrete Solana address; after lock the call fails with `WalletLocked`, and
after re-caching it returns the same address. -/
theorem c2_witness :
    managerDeriveAddress primsW stW.lock "w1" "solana" 0 0
      = .error .walletLocked ∧
    managerDeriveAddress primsW (stW.lock.cacheSeed "w1" seedW) "w1" "solana"
      0 0 = .ok solAddrW := by
  have h := c2_lock_invalidates_recache_reproduces primsW stW "w1" "solana"
    0 0 solAddrW seedW rfl rfl
  exact ⟨h.1 "w1" "solana" 0 0, h.2⟩

/-- C9: the `password` argument of `create_hd_wallet` and
`import_hd_wallet` has no influence on the output: two runs that differ
only in the password (same request/mnemonic, same generated entropy, same
fresh wallet id) return identical responses and storage states — same
derived seed, same cached seed, same addresses — because the seed is
derived with an empty passphrase and the password is never read. -/
theorem c9_password_ignored (prims : Prims) (mn : MnemonicPrims)
    (st : SecureStorage) (request : CreateHDWalletRequest)
    (name phrase : String) (chains : List String)
    (freshWalletId p1 p2 : String) :
    createHdWallet prims mn st request p1 freshWalletId
      = createHdWallet prims mn st request p2 freshWalletId ∧
    importHdWallet prims mn st name phrase chains p1 freshWalletId
      = importHdWallet prims mn st name phrase chains p2 freshWalletId :=
  ⟨rfl, rfl⟩

theorem ethDeriveAddress_eq (prims : Prims) (m : EthereumModule)
    (seed : List Nat) (account index : Nat) :
    EthereumModule.deriveAddress prims m seed account index =
      match prims.derivePrivKey seed (m.derivationPath account index) with
      | .error e => .error e
      | .ok pk =>
        match prims.ethUncompressedPubkey pk with
        | .error e => .error (.derivationError ("Invalid private key: " ++ e))
        | .ok pub =>
            .ok { chain := m.chainId, chainFamily := .secp256k1,
                  address := toChecksumAddress
                    ("0x" ++ (hexChars ((keccak256 (pub.drop 1)).drop 12)).asString),
                  derivationPath := m.derivationPath account index,
                  publicKey := pub } := by
  unfold EthereumModule.deriveAddress
  dsimp only
  cases hk : prims.derivePrivKey seed (m.derivationPath account index) with
  | error e => rfl
  | ok pk =>
    cases hp : prims.ethUncompressedPubkey pk with
    | error e => rfl
    | ok pub => rfl

theorem evmDeriveAddress_eq_ethereum (prims : Prims) (m : EthereumModule)
    (seed : List Nat) (account index : Nat) :
    EthereumModule.deriveAddress prims m seed account index =
      (EthereumModule.deriveAddress prims .ethereum seed account index).map
        (fun d => { d with chain := m.chainId }) := by
  rw [ethDeriveAddress_eq, ethDeriveAddress_eq]
  have hpath : EthereumModule.derivationPath m account index
      = EthereumModule.derivationPath .ethereum account index := rfl
  rw [hpath]
  generalize prims.derivePrivKey seed
      (EthereumModule.derivationPath .ethereum account index) = r1
  cases r1 with
  | error e => rfl
  | ok pk =>
    dsimp only
    generalize prims.ethUncompressedPubkey pk = r2
    cases r2 with
    | error e => rfl
    | ok pub => rfl

/-- C4: for every seed, account and index, the EVM-family modules
(ethereum, arbitrum, optimism, base, polygon) derive the same address
string, the same derivation-path string (coin type 60) and the same public
key bytes: each result equals the Ethereum result with only the chain id
replaced, and the modules differ only in display metadata. -/
theorem c4_evm_family_identical (prims : Prims) (seed : List Nat)
    (account index : Nat) :
    (EthereumModule.deriveAddress prims .arbitrum seed account index
      = (EthereumModule.deriveAddress prims .ethereum seed account index).map
          (fun d => { d with chain := "arbitrum" })) ∧
    (EthereumModule.deriveAddress prims .optimism seed account index
      = (EthereumModule.deriveAddress prims .ethereum seed account index).map
          (fun d => { d with chain := "optimism" })) ∧
    (EthereumModule.deriveAddress prims .base seed account index
      = (EthereumModule.deriveAddress prims .ethereum seed account index).map
          (fun d => { d with chain := "base" })) ∧
    (EthereumModule.deriveAddress prims .polygon seed account index
      = (EthereumModule.deriveAddress prims .ethereum seed account index).map
          (fun d => { d with chain := "polygon" })) ∧
    (EthereumModule.derivationPath .arbitrum account index
        = EthereumModule.derivationPath .ethereum account index ∧
      EthereumModule.derivationPath .optimism account index
        = EthereumModule.derivationPath .ethereum account index ∧
      EthereumModule.derivationPath .base account index
        = EthereumModule.derivationPath .ethereum account index ∧
      EthereumModule.derivationPath .polygon account index
        = EthereumModule.derivationPath .ethereum account index) ∧
    (EthereumModule.coinType .ethereum = 60 ∧
      EthereumModule.coinType .arbitrum = 60 ∧
      EthereumModule.coinType .optimism = 60 ∧
      EthereumModule.coinType .base = 60 ∧
      EthereumModule.coinType .polygon = 60) :=
  ⟨evmDeriveAddress_eq_ethereum prims .arbitrum seed account index,
   evmDeriveAddress_eq_ethereum prims .optimism seed account index,
   evmDeriveAddress_eq_ethereum prims .base seed account index,
   evmDeriveAddress_eq_ethereum prims .polygon seed account index,
   ⟨rfl, rfl, rfl, rfl⟩, ⟨rfl, rfl, rfl, rfl, rfl⟩⟩

theorem toChecksumChars_roundtrip (keccak : List Nat → List Nat)
    (address : List Char)
    (htrim : trimStart0x ((trimStart0x address).map asciiToLower)
      = (trimStart0x address).map asciiToLower) :
    toChecksumChars keccak ((toChecksumChars keccak address).map asciiToLower)
      = toChecksumChars keccak address := by
  have hLfix : ∀ c ∈ (trimStart0x address).map asciiToLower,
      asciiToLower c = c := by
    intro c hc
    obtain ⟨x, _, rfl⟩ := List.mem_map.mp hc
    exact asciiToLower_idem x
  have hmap : ((trimStart0x address).map asciiToLower).map asciiToLower
      = (trimStart0x address).map asciiToLower :=
    calc ((trimStart0x address).map asciiToLower).map asciiToLower
        = ((trimStart0x address).map asciiToLower).map id :=
          List.map_congr_left (fun a ha => hLfix a ha)
      _ = (trimStart0x address).map asciiToLower := List.map_id _
  have h0 : asciiToLower '0' = '0' := rfl
  have hx : asciiToLower 'x' = 'x' := rfl
  have hout : (toChecksumChars keccak address).map asciiToLower
      = '0' :: 'x' :: (trimStart0x address).map asciiToLower := by
    simp only [toChecksumChars, List.map_cons, h0, hx,
      checksumMapChars_map_lower _ _ _ hLfix]
  rw [hout]
  have htrim2 :
      trimStart0x ('0' :: 'x' :: (trimStart0x address).map asciiToLower)
        = (trimStart0x address).map asciiToLower := by
    rw [show trimStart0x ('0' :: 'x' :: (trimStart0x address).map asciiToLower)
          = trimStart0x ((trimStart0x address).map asciiToLower) from rfl,
      htrim]
  simp only [toChecksumChars, htrim2, hmap]

/-- C5 (amended): the checksum function uppercases each hex letter of the
lowercase address exactly when the Keccak-256 nibble at the same character
position is `≥ 8`; and the checksum is a round-trip fixed point —
`checksum(lowercase(checksum(a))) = checksum(a)` — for every address whose
stripped, lowercased form does not itself begin with `0x` (in particular
for every well-formed hex address).  The original claim's unconditional
round trip fails for addresses beginning with an uppercase `0X`, see the
counterexample. -/
theorem c5_eip55_checksum (address : List Char) :
    (∀ i, i < ((trimStart0x address).map asciiToLower).length →
      (toChecksumChars keccak256 address).getD (i + 2) ' ' =
        (if isAsciiHexDigitChar
              (((trimStart0x address).map asciiToLower).getD i ' ') &&
            !isAsciiDigitChar
              (((trimStart0x address).map asciiToLower).getD i ' ') then
          if 8 ≤ (charToDigit16
              ((hexChars (keccak256
                  (((trimStart0x address).map asciiToLower).map Char.toNat))).getD
                i ' ')).getD 0 then
            asciiToUpper (((trimStart0x address).map asciiToLower).getD i ' ')
          else ((trimStart0x address).map asciiToLower).getD i ' '
        else ((trimStart0x address).map asciiToLower).getD i ' ')) ∧
    (trimStart0x ((trimStart0x address).map asciiToLower)
        = (trimStart0x address).map asciiToLower →
      toChecksumChars keccak256
          ((toChecksumChars keccak256 address).map asciiToLower)
        = toChecksumChars keccak256 address) := by
  constructor
  · intro i hi
    simp only [toChecksumChars]
    rw [show i + 2 = (i + 1) + 1 from rfl, List.getD_cons_succ,
      List.getD_cons_succ,
      checksumMapChars_getD _ _ 0 i hi, Nat.zero_add]
  · exact toChecksumChars_roundtrip keccak256 address

set_option maxRecDepth 10000 in
/-- C5 counterexample: the claim's unconditional round trip fails at the
concrete address `"0X5aaeb6053f3e94c9b9a09f33669435e7ef1beaed"` (the EIP-55
reference address with an uppercase `X`): checksumming its lowercased
checksummed form does not reproduce the checksummed form. -/
theorem c5_counterexample :
    toChecksumChars keccak256
        ((toChecksumChars keccak256 cexC5).map asciiToLower)
      ≠ toChecksumChars keccak256 cexC5 := by
  decide

set_option maxRecDepth 10000 in
/-- Witness for C5: the EIP-55 reference address
`0x5aaeb6053f3e94c9b9a09f33669435e7ef1beaed`: the character at position 2
follows the nibble rule, the round trip holds, and the checksummed form is
the published reference string. -/
theorem c5_witness :
    ((toChecksumChars keccak256
        "0x5aaeb6053f3e94c9b9a09f33669435e7ef1beaed".toList).getD (2 + 2) ' ' =
      (if isAsciiHexDigitChar
            (((trimStart0x "0x5aaeb6053f3e94c9b9a09f33669435e7ef1beaed".toList).map
                asciiToLower).getD 2 ' ') &&
          !isAsciiDigitChar
            (((trimStart0x "0x5aaeb6053f3e94c9b9a09f33669435e7ef1beaed".toList).map
                asciiToLower).getD 2 ' ') then
        if 8 ≤ (charToDigit16
            ((hexChars (keccak256
                (((trimStart0x "0x5aaeb6053f3e94c9b9a09f33669435e7ef1beaed".toList).map
                    asciiToLower).map Char.toNat))).getD 2 ' ')).getD 0 then
          asciiToUpper
            (((trimStart0x "0x5aaeb6053f3e94c9b9a09f33669435e7ef1beaed".toList).map
                asciiToLower).getD 2 ' ')
        else ((trimStart0x "0x5aaeb6053f3e94c9b9a09f33669435e7ef1beaed".toList).map
            asciiToLower).getD 2 ' '
      else ((trimStart0x "0x5aaeb6053f3e94c9b9a09f33669435e7ef1beaed".toList).map
          asciiToLower).getD 2 ' ')) ∧
    toChecksumChars keccak256
        ((toChecksumChars keccak256
            "0x5aaeb6053f3e94c9b9a09f33669435e7ef1beaed".toList).map asciiToLower)
      = toChecksumChars keccak256
          "0x5aaeb6053f3e94c9b9a09f33669435e7ef1beaed".toList ∧
    toChecksumChars keccak256 "0x5aaeb6053f3e94c9b9a09f33669435e7ef1beaed".toList
      = "0x5aAeb6053F3E94C9b9A09f33669435E7Ef1BeAed".toList :=
  ⟨(c5_eip55_checksum
      "0x5aaeb6053f3e94c9b9a09f33669435e7ef1beaed".toList).1 2 (by decide),
   (c5_eip55_checksum
      "0x5aaeb6053f3e94c9b9a09f33669435e7ef1beaed".toList).2 (by decide),
   by decide⟩

theorem btcDeriveAddress_eq (prims : Prims) (m : BitcoinModule)
    (seed : List Nat) (account index : Nat) :
    BitcoinModule.deriveAddress prims m seed account index =
      match prims.derivePrivKey seed (m.derivationPath account index) with
      | .error e => .error e
      | .ok pk =>
        match prims.btcPublicKey pk with
        | .error e => .error (.derivationError ("Invalid private key: " ++ e))
        | .ok pub =>
            .ok { chain := m.chainId, chainFamily := .secp256k1,
                  address := prims.btcP2wpkh pub (m.network == .bitcoin),
                  derivationPath := m.derivationPath account index,
                  publicKey := pub } := by
  unfold BitcoinModule.deriveAddress
  dsimp only
  cases hk : prims.derivePrivKey seed (m.derivationPath account index) with
  | error e => rfl
  | ok pk =>
    cases hp : prims.btcPublicKey pk with
    | error e => rfl
    | ok pub => rfl

theorem solDeriveAddress_eq (prims : Prims) (m : SolanaModule)
    (seed : List Nat) (account index : Nat) :
    SolanaModule.deriveAddress prims m seed account index =
      match prims.slip10DerivePath seed [44, 501, account, index] with
      | .error e => .error e
      | .ok pk =>
        match prims.ed25519PublicKey pk with
        | .error e => .error e
        | .ok pub =>
            .ok { chain := m.chainId, chainFamily := .ed25519,
                  address := (bs58Encode pub).asString,
                  derivationPath := m.derivationPath account index,
                  publicKey := pub } := by
  unfold SolanaModule.deriveAddress
  dsimp only
  cases hk : prims.slip10DerivePath seed [44, 501, account, index] with
  | error e => rfl
  | ok pk =>
    dsimp only
    change Except.bind (prims.ed25519PublicKey pk) _ = _
    cases hp : prims.ed25519PublicKey pk with
    | error e => rfl
    | ok pub => rfl

theorem ethDeriveAddress_chain {prims : Prims} {m : EthereumModule}
    {seed : List Nat} {account index : Nat} {addr : DerivedAddress}
    (h : EthereumModule.deriveAddress prims m seed account index = .ok addr) :
    addr.chain = m.chainId := by
  rw [ethDeriveAddress_eq] at h
  rcases h1 : prims.derivePrivKey seed (m.derivationPath account index) with e | pk <;>
    rw [h1] at h
  · simp at h
  · dsimp only at h
    rcases h2 : prims.ethUncompressedPubkey pk with e2 | pub <;> rw [h2] at h
    · simp at h
    · dsimp only at h
      injection h with h3
      rw [← h3]

theorem btcDeriveAddress_chain {prims : Prims} {m : BitcoinModule}
    {seed : List Nat} {account index : Nat} {addr : DerivedAddress}
    (h : BitcoinModule.deriveAddress prims m seed account index = .ok addr) :
    addr.chain = m.chainId := by
  rw [btcDeriveAddress_eq] at h
  rcases h1 : prims.derivePrivKey seed (m.derivationPath account index) with e | pk <;>
    rw [h1] at h
  · simp at h
  · dsimp only at h
    rcases h2 : prims.btcPublicKey pk with e2 | pub <;> rw [h2] at h
    · simp at h
    · dsimp only at h
      injection h with h3
      rw [← h3]

theorem solDeriveAddress_chain {prims : Prims} {m : SolanaModule}
    {seed : List Nat} {account index : Nat} {addr : DerivedAddress}
    (h : SolanaModule.deriveAddress prims m seed account index = .ok addr) :
    addr.chain = m.chainId := by
  rw [solDeriveAddress_eq] at h
  rcases h1 : prims.slip10DerivePath seed [44, 501, account, index] with e | pk <;>
    rw [h1] at h
  · simp at h
  · dsimp only at h
    rcases h2 : prims.ed25519PublicKey pk with e2 | pub <;> rw [h2] at h
    · simp at h
    · dsimp only at h
      injection h with h3
      rw [← h3]

theorem lookup_mem {α β : Type _} [BEq α] [LawfulBEq α] {l : List (α × β)}
    {k : α} {v : β} (h : l.lookup k = some v) : (k, v) ∈ l := by
  induction l with
  | nil => simp [List.lookup] at h
  | cons p t ih =>
    obtain ⟨a, b⟩ := p
    simp only [List.lookup] at h
    split at h
    · next heq =>
      injection h with h2
      have : a = k := (eq_of_beq heq).symm
      subst this
      subst h2
      exact List.mem_cons_self _ _
    · exact List.mem_cons_of_mem _ (ih h)

theorem registryNew_entries (prims : Prims) :
    ∀ p ∈ (ChainRegistry.new prims).modules,
      p.2.chainId = p.1 ∧
      ∀ seed account index addr,
        p.2.deriveAddress seed account index = .ok addr →
          addr.chain = p.2.chainId := by
  intro p hp
  simp only [ChainRegistry.new, ChainRegistry.register, List.mem_cons,
    List.not_mem_nil, or_false] at hp
  rcases hp with h | h | h | h | h | h | h <;> subst h <;>
    refine ⟨rfl, fun seed account index addr h => ?_⟩
  · exact solDeriveAddress_chain h
  · exact ethDeriveAddress_chain h
  · exact ethDeriveAddress_chain h
  · exact ethDeriveAddress_chain h
  · exact ethDeriveAddress_chain h
  · exact ethDeriveAddress_chain h
  · exact btcDeriveAddress_chain h

theorem registryNew_deriveAddress_chain {prims : Prims} {chainId : String}
    {seed : List Nat} {account index : Nat} {addr : DerivedAddress}
    (h : (ChainRegistry.new prims).deriveAddress chainId seed account index
      = .ok addr) : addr.chain = chainId := by
  unfold ChainRegistry.deriveAddress at h
  cases hget : (ChainRegistry.new prims).get chainId with
  | none => rw [hget] at h; simp at h
  | some m =>
    rw [hget] at h
    have hmem : (chainId, m) ∈ (ChainRegistry.new prims).modules :=
      lookup_mem hget
    have hent := registryNew_entries prims (chainId, m) hmem
    rw [hent.2 seed account index addr h, hent.1]

theorem deriveAddresses_cons (r : ChainRegistry) (chainId : String)
    (rest : List String) (seed : List Nat) (account : Nat) :
    r.deriveAddresses (chainId :: rest) seed account =
      match r.deriveAddress chainId seed account 0 with
      | .error e => .error e
      | .ok a =>
        match r.deriveAddresses rest seed account with
        | .error e => .error e
        | .ok as => .ok (a :: as) := by
  show (do
    let a ← r.deriveAddress chainId seed account 0
    let as ← r.deriveAddresses rest seed account
    pure (a :: as)) = _
  cases r.deriveAddress chainId seed account 0 with
  | error e => rfl
  | ok a =>
    cases r.deriveAddresses rest seed account with
    | error e => rfl
    | ok as => rfl

/-- C7: an unregistered chain id makes `derive_address` and
`validate_address` fail with `UnsupportedChain`; `derive_addresses` is a
fail-fast left-to-right fan-out, returning the error of the first
unsupported chain (provided the supported chains before it derive
successfully), and succeeding only when every listed chain id is supported,
with one address per chain in the order requested, each carrying its
chain's id. -/
theorem c7_registry_dispatch (prims : Prims) (seed : List Nat)
    (account index : Nat) (chainId address : String)
    (chainIds : List String) :
    ((ChainRegistry.new prims).isSupported chainId = false →
      (ChainRegistry.new prims).deriveAddress chainId seed account index
          = .error (.unsupportedChain chainId) ∧
      (ChainRegistry.new prims).validateAddress chainId address
          = .error (.unsupportedChain chainId)) ∧
    (∀ pre c rest, chainIds = pre ++ c :: rest →
      (∀ c' ∈ pre, ∃ a,
        (ChainRegistry.new prims).deriveAddress c' seed account 0 = .ok a) →
      (ChainRegistry.new prims).isSupported c = false →
      (ChainRegistry.new prims).deriveAddresses chainIds seed account
          = .error (.unsupportedChain c)) ∧
    (∀ addrs,
      (ChainRegistry.new prims).deriveAddresses chainIds seed account
          = .ok addrs →
      (∀ c' ∈ chainIds, (ChainRegistry.new prims).isSupported c' = true) ∧
      addrs.length = chainIds.length ∧
      (∀ i (hi : i < chainIds.length) (ha : i < addrs.length),
        (ChainRegistry.new prims).deriveAddress (chainIds.get ⟨i, hi⟩)
            seed account 0 = .ok (addrs.get ⟨i, ha⟩) ∧
        (addrs.get ⟨i, ha⟩).chain = chainIds.get ⟨i, hi⟩)) := by
  have hunsup : ∀ cid, (ChainRegistry.new prims).isSupported cid = false →
      (ChainRegistry.new prims).get cid = none := by
    intro cid h
    cases hg : (ChainRegistry.new prims).get cid with
    | none => rfl
    | some m =>
      unfold ChainRegistry.isSupported at h
      rw [hg] at h
      simp at h
  refine ⟨?_, ?_, ?_⟩
  · intro h
    have hg := hunsup chainId h
    constructor
    · unfold ChainRegistry.deriveAddress
      rw [hg]
    · unfold ChainRegistry.validateAddress
      rw [hg]
  · intro pre c rest heq hpre hc
    subst heq
    induction pre with
    | nil =>
      rw [show ([] : List String) ++ c :: rest = c :: rest from rfl,
        deriveAddresses_cons]
      rw [show (ChainRegistry.new prims).deriveAddress c seed account 0
          = .error (.unsupportedChain c) by
        unfold ChainRegistry.deriveAddress
        rw [hunsup c hc]]
    | cons p ps ih =>
      obtain ⟨a, ha⟩ := hpre p (List.mem_cons_self p ps)
      rw [show (p :: ps) ++ c :: rest = p :: (ps ++ c :: rest) from rfl,
        deriveAddresses_cons, ha,
        ih (fun c' hc' => hpre c' (List.mem_cons_of_mem p hc'))]
  · intro addrs h
    induction chainIds generalizing addrs with
    | nil =>
      unfold ChainRegistry.deriveAddresses at h
      injection h with h2
      subst h2
      refine ⟨by simp, rfl, fun i hi => absurd hi (by simp)⟩
    | cons c rest ih =>
      rw [deriveAddresses_cons] at h
      cases hg : (ChainRegistry.new prims).deriveAddress c seed account 0 with
      | error e => rw [hg] at h; simp at h
      | ok a =>
        rw [hg] at h
        cases hr : (ChainRegistry.new prims).deriveAddresses rest seed account with
        | error e => rw [hr] at h; simp at h
        | ok as =>
          rw [hr] at h
          dsimp only at h
          injection h with h2
          subst h2
          obtain ⟨ihsup, ihlen, ihidx⟩ := ih as hr
          have hsupc : (ChainRegistry.new prims).isSupported c = true := by
            unfold ChainRegistry.deriveAddress at hg
            cases hget : (ChainRegistry.new prims).get c with
            | none => rw [hget] at hg; simp at hg
            | some m => unfold ChainRegistry.isSupported; rw [hget]; rfl
          refine ⟨?_, by simp [ihlen], ?_⟩
          · intro c' hc'
            rcases List.mem_cons.mp hc' with h' | h'
            · subst h'; exact hsupc
            · exact ihsup c' h'
          · intro i hi ha
            cases i with
            | zero =>
              exact ⟨hg, registryNew_deriveAddress_chain hg⟩
            | succ j =>
              have hj : j < rest.length := by simpa using hi
              have hja : j < as.length := by simpa using ha
              exact ihidx j hj hja

/-- Witness for C7: with the trivial primitives, `"unknown"` is rejected
with `UnsupportedChain` by dispatch and fail-fast fan-out, while
`["solana"]` fans out to one address carrying its chain id. -/
theorem c7_witness :
    (ChainRegistry.new primsW).deriveAddress "unknown" seedW 0 0
        = .error (.unsupportedChain "unknown") ∧
    (ChainRegistry.new primsW).validateAddress "unknown" "bc1qexample"
        = .error (.unsupportedChain "unknown") ∧
    (ChainRegistry.new primsW).deriveAddresses ["solana", "unknown"] seedW 0
        = .error (.unsupportedChain "unknown") ∧
    ((ChainRegistry.new primsW).deriveAddress "solana" seedW 0 0
        = .ok solAddrW ∧
      solAddrW.chain = "solana") := by
  have h1 := c7_registry_dispatch primsW seedW 0 0 "unknown" "bc1qexample"
    ["solana", "unknown"]
  have h2 := c7_registry_dispatch primsW seedW 0 0 "unknown" "bc1qexample"
    ["solana"]
  refine ⟨(h1.1 rfl).1, (h1.1 rfl).2, ?_, ?_⟩
  · refine h1.2.1 ["solana"] "unknown" [] rfl ?_ rfl
    intro c' hc'
    have hc : c' = "solana" := by simpa using hc'
    subst hc
    exact ⟨solAddrW, rfl⟩
  · have h3 := h2.2.2 [solAddrW] rfl
    have h4 := h3.2.2 0 (by decide) (by decide)
    exact ⟨h4.1, h4.2⟩

/-- C8: `SolanaModule::validate_address` returns true iff the string's
length is between 32 and 44 inclusive, every character belongs to the
Bitcoin-variant Base58 alphabet, and the Base58 decoding is exactly 32
bytes. -/
theorem c8_solana_validate (m : SolanaModule) (address : String) :
    m.validateAddress address = true ↔
      (32 ≤ address.toList.length ∧ address.toList.length ≤ 44 ∧
        (∀ c ∈ address.toList, c ∈ base58Alphabet) ∧
        ∃ bytes, bs58Decode address.toList = some bytes ∧
          bytes.length = 32) := by
  have hval : m.validateAddress address =
      (if address.toList.length < 32 || address.toList.length > 44 then false
       else if !isValidBase58 address.toList then false
       else
         match bs58Decode address.toList with
         | some bytes => bytes.length == 32
         | none => false) := rfl
  rw [hval]
  have halpha : isValidBase58 address.toList = true ↔
      ∀ c ∈ address.toList, c ∈ base58Alphabet := by
    simp only [isValidBase58, List.all_eq_true]
    constructor
    · intro h c hc
      exact List.elem_iff.mp (h c hc)
    · intro h c hc
      exact List.elem_iff.mpr (h c hc)
  by_cases hlen :
      (address.toList.length < 32 || address.toList.length > 44) = true
  · rw [if_pos hlen]
    simp only [Bool.false_eq_true, false_iff]
    rintro ⟨h32, h44, -, -⟩
    simp only [Bool.or_eq_true, decide_eq_true_eq] at hlen
    omega
  · rw [if_neg hlen]
    simp only [Bool.or_eq_true, decide_eq_true_eq, not_or, not_lt] at hlen
    by_cases hb : isValidBase58 address.toList = true
    · rw [if_neg (by rw [hb]; decide)]
      cases hdec : bs58Decode address.toList with
      | none =>
        dsimp only
        simp only [Bool.false_eq_true, false_iff]
        rintro ⟨-, -, -, bytes, hbytes, -⟩
        exact Option.noConfusion hbytes
      | some bytes =>
        dsimp only
        constructor
        · intro h
          refine ⟨hlen.1, by omega, halpha.mp hb, bytes, rfl, by simpa using h⟩
        · rintro ⟨-, -, -, bytes2, hbytes2, hlen2⟩
          injection hbytes2 with h2
          subst h2
          simpa using hlen2
    · have hb2 : isValidBase58 address.toList = false := by
        cases h2 : isValidBase58 address.toList
        · rfl
        · exact absurd h2 hb
      rw [if_pos (by rw [hb2]; decide)]
      simp only [Bool.false_eq_true, false_iff]
      rintro ⟨-, -, hall, -⟩
      exact hb (halpha.mpr hall)

/-- C1 (amended): every transaction returned by the full-wallet
`get_transactions` corresponds to a wallet transaction whose reported
signed amount is the sum of the outputs whose script the wallet owns;
owned inputs are never subtracted (the `sent` side is the constant 0 in
the code), so the full-wallet path is received-only, like the
single-address path. -/
theorem c1_fullwallet_amount (w : BdkWallet) (addrOf : Nat → Option String)
    (bt : BitcoinTransaction) (hmem : bt ∈ getTransactions w addrOf) :
    ∃ tx, tx ∈ w.transactions ∧ bt.txid = tx.txid ∧
      bt.amountSats = receivedOnlyAmount w tx := by
  unfold getTransactions at hmem
  rw [mem_sortByStable] at hmem
  obtain ⟨tx, htx, rfl⟩ := List.mem_map.mp hmem
  refine ⟨tx, htx, rfl, ?_⟩
  show (txToBitcoinTransaction w addrOf tx).amountSats = _
  simp [txToBitcoinTransaction, receivedOnlyAmount]

/-- Witness for C1: the concrete wallet's single history entry reports the
received-only amount 30. -/
theorem c1_witness :
    cexBt ∈ getTransactions cexWallet cexAddrOf ∧
    ∃ tx, tx ∈ cexWallet.transactions ∧ cexBt.txid = tx.txid ∧
      cexBt.amountSats = receivedOnlyAmount cexWallet tx :=
  ⟨by decide,
   c1_fullwallet_amount cexWallet cexAddrOf cexBt (by decide)⟩

/-- C1 counterexample: for the concrete wallet owning script 1 with a
transaction spending an owned 100-sat input into an owned 30-sat output,
`get_transactions` reports amount 30, while the claimed netting formula
(owned outputs minus owned inputs) gives −70: the claim fails on the only
returned transaction. -/
theorem c1_counterexample :
    (getTransactions cexWallet cexAddrOf).map (fun bt => bt.amountSats)
        = [30] ∧
    specSignedAmount cexWallet cexTx = -70 ∧
    ¬ (∀ bt ∈ getTransactions cexWallet cexAddrOf,
        ∃ tx ∈ cexWallet.transactions,
          bt.txid = tx.txid ∧
          bt.amountSats = specSignedAmount cexWallet tx) := by
  refine ⟨by decide, by decide, by decide⟩

/-- C6: whenever the control flow of `create_and_send_transaction` reaches
signing and the wallet does not finalize the transaction (missing key
material) — or signing itself errors — the call returns a Bitcoin-domain
error, no transaction result, and no broadcast request is ever submitted,
regardless of the `broadcast` flag. -/
theorem c6_sign_incomplete_fatal (env : SendEnv) (broadcast : Bool)
    (script psbt : Nat)
    (hparse : env.parseRecipient = .ok ())
    (hnet : env.requireNetwork = .ok script)
    (hbuild : env.buildTx = .ok psbt) :
    (∀ psbt2, env.sign psbt = .ok (false, psbt2) →
      createAndSendTransaction env broadcast
        = (.error (.bitcoin "Transaction not fully signed - missing keys"),
            false)) ∧
    (∀ e, env.sign psbt = .error e →
      createAndSendTransaction env broadcast
        = (.error (.bitcoin ("Transaction signing failed: " ++ e)), false)) := by
  constructor
  · intro psbt2 hsign
    unfold createAndSendTransaction
    rw [hparse, hnet, hbuild]
    dsimp only
    rw [hsign]
    rfl
  · intro e hsign
    unfold createAndSendTransaction
    rw [hparse, hnet, hbuild]
    dsimp only
    rw [hsign]

/-- Witness for C6: the concrete environment whose signer reports
`finalized = false` makes the send fail with the exact missing-keys error
and submit no broadcast, for both values of the `broadcast` flag. -/
theorem c6_witness :
    createAndSendTransaction sendEnvW true
        = (.error (.bitcoin "Transaction not fully signed - missing keys"),
            false) ∧
    createAndSendTransaction sendEnvW false
        = (.error (.bitcoin "Transaction not fully signed - missing keys"),
            false) :=
  ⟨(c6_sign_incomplete_fatal sendEnvW true 5 11 rfl rfl rfl).1 12 rfl,
   (c6_sign_incomplete_fatal sendEnvW false 5 11 rfl rfl rfl).1 12 rfl⟩

end Coinbox
